import Mathlib

/-!
Shallow embedding of the TaskIt task-management backend (Node/Express +
Mongoose), covering the authentication controller (`auth.controller.js`,
given as `src/unnamed/part_004` lines 58-337), the task controller
(lines 338-701), the user controller (lines 702-958), and the Mongoose
`Task` schema pre-save hook (`src/backend/src/server.js` part, lines
179-187 of the Task model).

Modelling conventions:
* Mongo ObjectIds are `Nat`; dates/timestamps are `Nat` ticks.
* A signed JWT is modelled as a record carrying its payload `id` claim, a
  `nonce` distinguishing successive issuances (`iat`), and flags for the
  two failure modes of `jwt.verify` (bad signature / expired).
* bcrypt is modelled as an injective tagging function: the controller
  logic only branches on whether `compare` succeeds.
* The document store is an in-memory list per collection; `findOne` /
  `findById` return the first match, `updateMany` maps over the list,
  `findOneAndDelete` erases the first match.
* Express responses are `Resp α`: HTTP status, the `success` flag, the
  `message` string, and the optional `data` payload.
-/

namespace TaskIt

/-- HTTP JSON response envelope `{success, message, data?}` with status. -/
structure Resp (α : Type) where
  status : Nat
  success : Bool
  message : String
  data : Option α
deriving DecidableEq, Repr

/-- Signed JWT model: `payloadId` is the `id` claim, `nonce` stands for the
issue instant (two tokens issued at different points differ), `sigValid` /
`expired` drive the `JsonWebTokenError` / `TokenExpiredError` outcomes of
`jwt.verify`. -/
structure Jwt where
  payloadId : Nat
  nonce : Nat
  sigValid : Bool
  expired : Bool
deriving DecidableEq, Repr

/-- Model of `jwt.verify(token, secret)`: returns the decoded `id` claim, or
`none` when the library would throw (`JsonWebTokenError` or
`TokenExpiredError`). -/
def jwtVerify (t : Jwt) : Option Nat :=
  if t.sigValid ∧ ¬ t.expired then some t.payloadId else none

/-- Model of `user.generateAccessToken()` (User.js): signs `{id, email, role}`
with the access secret.  Only the `id` claim matters to the handlers below. -/
def generateAccessToken (uid nonce : Nat) : Jwt :=
  { payloadId := uid, nonce := nonce, sigValid := true, expired := false }

/-- Model of `user.generateRefreshToken()` (User.js): signs `{id}` with the
refresh secret. -/
def generateRefreshToken (uid nonce : Nat) : Jwt :=
  { payloadId := uid, nonce := nonce, sigValid := true, expired := false }

/-- Model of `bcrypt.hash` (User.js pre-save hook): an injective one-way tag;
the handlers only branch on `bcrypt.compare`. -/
def bcryptHash (plain : String) : String := "bcrypt$" ++ plain

/-- Model of `user.comparePassword` / `bcrypt.compare`. -/
def bcryptCompare (candidate stored : String) : Bool :=
  bcryptHash candidate == stored

/-- `User` document (models/User.js): `_id`, name, email, hashed password,
role (`user` or `admin`), optional stored refresh token. -/
structure Account where
  id : Nat
  name : String
  email : String
  password : String
  role : String
  refreshToken : Option Jwt
deriving DecidableEq, Repr

/-- `Task` document (models/Task.js): `_id`, title, optional description,
status, priority, optional due date, tags, owning user `_id`, optional
completion timestamp, creation timestamp. -/
structure TaskDoc where
  id : Nat
  title : String
  description : Option String
  status : String
  priority : String
  dueDate : Option Int
  tags : List String
  user : Nat
  completedAt : Option Nat
  createdAt : Nat
deriving DecidableEq, Repr

/-- The persistent store: the `users` and `tasks` collections plus counters
supplying fresh ObjectIds and fresh token-issue instants. -/
structure Store where
  users : List Account
  tasks : List TaskDoc
  nextUserId : Nat
  nextTaskId : Nat
  nextNonce : Nat
deriving DecidableEq, Repr

/-- Model of `User.findById` / `findOne({_id})`: first user with the id. -/
def findUserById (db : Store) (uid : Nat) : Option Account :=
  db.users.find? (fun u => u.id == uid)

/-- Model of `User.findOne({email})`: first user with the email. -/
def findUserByEmail (db : Store) (email : String) : Option Account :=
  db.users.find? (fun u => u.email == email)

/-- Model of `user.save()` on a user document: persist the document under its
`_id`, replacing the stored version. -/
def saveUser (users : List Account) (u : Account) : List Account :=
  users.map (fun x => if x.id == u.id then u else x)

/-- Payload of the auth success responses: the user sans password plus the
freshly issued token pair. -/
structure AuthData where
  id : Nat
  name : String
  email : String
  role : String
  accessToken : Jwt
  refreshTokenIssued : Jwt
deriving DecidableEq, Repr

/-- `sendTokenResponse(user, statusCode, res, message)` (auth controller):
issues an access and a refresh token, stores the refresh token on the user
document (`user.refreshToken = refreshToken; await user.save(...)`), and
responds with the user plus both tokens. -/
def sendTokenResponse (db : Store) (u : Account) (statusCode : Nat)
    (msg : String) : Resp AuthData × Store :=
  let accessToken := generateAccessToken u.id db.nextNonce
  let refreshTok := generateRefreshToken u.id (db.nextNonce + 1)
  let u1 := { u with refreshToken := some refreshTok }
  (⟨statusCode, true, msg,
     some ⟨u.id, u.name, u.email, u.role, accessToken, refreshTok⟩⟩,
   { db with users := saveUser db.users u1, nextNonce := db.nextNonce + 2 })

/-- `register` (auth controller): rejects a duplicate email with 400;
otherwise computes `validRole = ['user','admin'].includes(role) ? role :
'user'` (an absent role is not included, hence defaults), creates the user
with the bcrypt-hashed password, and sends a 201 token response.
`role?` is `none` when the request body carries no `role` field. -/
def register (db : Store) (name email password : String)
    (role? : Option String) : Resp AuthData × Store :=
  match findUserByEmail db email with
  | some _ => (⟨400, false, "User with this email already exists", none⟩, db)
  | none =>
    let validRole :=
      match role? with
      | some r => if r = "user" ∨ r = "admin" then r else "user"
      | none => "user"
    let u : Account :=
      { id := db.nextUserId, name := name, email := email,
        password := bcryptHash password, role := validRole,
        refreshToken := none }
    let db1 := { db with users := db.users ++ [u],
                         nextUserId := db.nextUserId + 1 }
    sendTokenResponse db1 u 201 "Registration successful"

/-- `login` (auth controller): finds the user by email (including the
password field); a missing user and a failed `comparePassword` both return
the same 401 `Invalid credentials` response; otherwise sends a 200 token
response. -/
def login (db : Store) (email password : String) : Resp AuthData × Store :=
  match findUserByEmail db email with
  | none => (⟨401, false, "Invalid credentials", none⟩, db)
  | some u =>
    if bcryptCompare password u.password then
      sendTokenResponse db u 200 "Login successful"
    else
      (⟨401, false, "Invalid credentials", none⟩, db)

/-- `refreshToken` (auth controller): 400 when the body carries no token;
401 `Invalid or expired refresh token` when `jwt.verify` throws; 401
`Invalid refresh token` when no user matches the decoded id or the stored
`user.refreshToken` is not strictly equal to the presented token; otherwise
rotates: generates a new pair, overwrites the stored refresh token, and
responds 200 with the new pair. -/
def refreshTokenHandler (db : Store) (presented? : Option Jwt) :
    Resp (Jwt × Jwt) × Store :=
  match presented? with
  | none => (⟨400, false, "Refresh token is required", none⟩, db)
  | some t =>
    match jwtVerify t with
    | none => (⟨401, false, "Invalid or expired refresh token", none⟩, db)
    | some uid =>
      match findUserById db uid with
      | none => (⟨401, false, "Invalid refresh token", none⟩, db)
      | some u =>
        if u.refreshToken == some t then
          let newAccessToken := generateAccessToken u.id db.nextNonce
          let newRefreshToken := generateRefreshToken u.id (db.nextNonce + 1)
          let u1 := { u with refreshToken := some newRefreshToken }
          (⟨200, true, "Token refreshed successfully",
             some (newAccessToken, newRefreshToken)⟩,
           { db with users := saveUser db.users u1,
                     nextNonce := db.nextNonce + 2 })
        else
          (⟨401, false, "Invalid refresh token", none⟩, db)

/-- `logout` (auth controller): clears the stored refresh token. -/
def logout (db : Store) (callerId : Nat) : Resp Unit × Store :=
  let users := db.users.map
    (fun x => if x.id == callerId then { x with refreshToken := none } else x)
  (⟨200, true, "Logged out successfully", none⟩, { db with users := users })

/-- Store sanity: every stored refresh token was issued at an instant below
the store's `nextNonce` counter.  Every issuing operation bumps the counter
past the nonce it used, so this is preserved by the handlers and guarantees
a rotated-in token is distinct from every previously stored one. -/
def StoreWF (db : Store) : Prop :=
  ∀ u ∈ db.users, ∀ t, u.refreshToken = some t → t.nonce < db.nextNonce

/-- The Task-schema pre-save hook (models/Task.js): when the `status` path is
modified and equals `completed`, set `completedAt` to now; when it is
modified and differs from `completed`, clear `completedAt`.  The two `if`
statements run in source order. -/
def statusPreSave (statusModified : Bool) (now : Nat) (t : TaskDoc) : TaskDoc :=
  let t1 := if statusModified ∧ t.status = "completed"
            then { t with completedAt := some now } else t
  if statusModified ∧ t1.status ≠ "completed"
  then { t1 with completedAt := none } else t1

/-- `createTask` (task controller): `Task.create` with the body fields and
`user: req.user._id`; absent status/priority take the schema defaults
`pending`/`medium`; the pre-save hook runs with the status path modified
(new document).  Responds 201 with the created task. -/
def createTask (db : Store) (caller : Account) (title : String)
    (descr : Option String) (status? priority? : Option String)
    (due : Option Int) (tags : List String) (now : Nat) :
    Resp TaskDoc × Store :=
  let raw : TaskDoc :=
    { id := db.nextTaskId, title := title, description := descr,
      status := status?.getD "pending", priority := priority?.getD "medium",
      dueDate := due, tags := tags, user := caller.id,
      completedAt := none, createdAt := now }
  let t := statusPreSave true now raw
  (⟨201, true, "Task created successfully", some t⟩,
   { db with tasks := db.tasks ++ [t], nextTaskId := db.nextTaskId + 1 })

/-- `getTask` (task controller): `Task.findOne({_id: req.params.id, user:
req.user._id})` — always owner-scoped, with no role distinction; 404
`Task not found` when nothing matches.  Read-only. -/
def getTask (db : Store) (caller : Account) (tid : Nat) : Resp TaskDoc :=
  match db.tasks.find? (fun t => t.id == tid && t.user == caller.id) with
  | none => ⟨404, false, "Task not found", none⟩
  | some t => ⟨200, true, "", some t⟩

/-- The query `updateTask` builds: `{_id: req.params.id}`, with
`query.user = req.user._id` added unless the caller's role is `admin`. -/
def updateTaskMatch (caller : Account) (tid : Nat) (t : TaskDoc) : Bool :=
  if caller.role ≠ "admin" then t.id == tid && t.user == caller.id
  else t.id == tid

/-- `updateTask` (task controller): finds the task through
`updateTaskMatch` (admin unscoped, others owner-scoped), 404 when absent;
assigns each provided body field (`if (title) ...` truthiness for title,
status, priority, tags — `none` models an absent-or-falsy field;
`!== undefined` for description and dueDate, where the outer `Option` is
presence), then `task.save()` runs the pre-save hook; Mongoose marks
`status` modified only when the assigned value differs from the loaded one.
Responds 200 with the saved task. -/
def updateTask (db : Store) (caller : Account) (tid : Nat)
    (title? : Option String) (descr? : Option (Option String))
    (status? priority? : Option String) (due? : Option (Option Int))
    (tags? : Option (List String)) (now : Nat) : Resp TaskDoc × Store :=
  match db.tasks.find? (updateTaskMatch caller tid) with
  | none => (⟨404, false, "Task not found", none⟩, db)
  | some t =>
    let statusModified :=
      match status? with
      | some s => s != t.status
      | none => false
    let t1 := match title? with | some s => { t with title := s } | none => t
    let t2 := match descr? with
              | some d => { t1 with description := d } | none => t1
    let t3 := match status? with
              | some s => { t2 with status := s } | none => t2
    let t4 := match priority? with
              | some p => { t3 with priority := p } | none => t3
    let t5 := match due? with
              | some d => { t4 with dueDate := d } | none => t4
    let t6 := match tags? with
              | some ts => { t5 with tags := ts } | none => t5
    let t7 := statusPreSave statusModified now t6
    (⟨200, true, "Task updated successfully", some t7⟩,
     { db with tasks := db.tasks.map (fun x => if x.id == t.id then t7 else x) })

/-- `deleteTask` (task controller): `Task.findOneAndDelete({_id:
req.params.id, user: req.user._id})` — always owner-scoped; 404 when
nothing matches (and nothing is deleted), else the first matching document
is removed. -/
def deleteTask (db : Store) (caller : Account) (tid : Nat) :
    Resp Unit × Store :=
  match db.tasks.find? (fun t => t.id == tid && t.user == caller.id) with
  | none => (⟨404, false, "Task not found", none⟩, db)
  | some _ =>
    (⟨200, true, "Task deleted successfully", none⟩,
     { db with tasks :=
         db.tasks.eraseP (fun t => t.id == tid && t.user == caller.id) })

/-- `bulkUpdateStatus` (task controller): 400 on an empty `taskIds` array;
400 when the status is not one of the three enum values; otherwise
`Task.updateMany({_id: {$in: taskIds}, user: req.user._id}, {status, ...})`
which sets `completedAt` to now when the new status is `completed` and
`$unset`s it otherwise. -/
def bulkUpdateStatus (db : Store) (caller : Account) (taskIds : List Nat)
    (status : String) (now : Nat) : Resp Unit × Store :=
  if taskIds.isEmpty then
    (⟨400, false, "Task IDs array is required", none⟩, db)
  else if status ∉ ["pending", "in-progress", "completed"] then
    (⟨400, false, "Invalid status", none⟩, db)
  else
    let upd := fun t : TaskDoc =>
      if t.id ∈ taskIds ∧ t.user = caller.id then
        if status = "completed"
        then { t with status := status, completedAt := some now }
        else { t with status := status, completedAt := none }
      else t
    (⟨200, true, "tasks updated successfully", none⟩,
     { db with tasks := db.tasks.map upd })

/-- Contiguous-sublist test on character lists. -/
def charsContain (hay needle : List Char) : Bool :=
  (List.range (hay.length + 1)).any (fun i => needle.isPrefixOf (hay.drop i))

/-- Case-insensitive containment, modelling the literal-pattern case of a
`$regex: q, $options: 'i'` filter. -/
def containsCI (hay needle : String) : Bool :=
  charsContain hay.toLower.toList needle.toLower.toList

/-- The filter `getTasks` builds: owner scoping `{user: req.user._id}`,
then optional equality filters on status and priority, the case-insensitive
search over title and description, and the `$in` tag filter. -/
def getTasksMatch (callerId : Nat) (statusQ priorityQ searchQ : Option String)
    (tagsQ : Option (List String)) (t : TaskDoc) : Bool :=
  t.user == callerId
  && (match statusQ with | some s => t.status == s | none => true)
  && (match priorityQ with | some p => t.priority == p | none => true)
  && (match searchQ with
      | some q => containsCI t.title q || containsCI (t.description.getD "") q
      | none => true)
  && (match tagsQ with
      | some ts => t.tags.any (fun tag => ts.contains tag)
      | none => true)

/-- Model of `parseInt(q) || d`: `none` stands for an absent or non-numeric
parameter (`parseInt` yields `NaN`, which is falsy), and a parsed `0` is
falsy as well, so both fall back to the default. -/
def parseIntOr (n? : Option Int) (d : Int) : Int :=
  match n? with
  | none => d
  | some n => if n = 0 then d else n

/-- Model of `Math.ceil(total / limit)` for the positive limits the handler
works with (integer ceiling division). -/
def mathCeilDiv (total : Nat) (limit : Int) : Int :=
  ((total : Int) + limit - 1) / limit

/-- The `getTasks` 200 payload: the page of tasks plus the pagination
object `{page, limit, total, pages}`. -/
structure TasksPage where
  tasks : List TaskDoc
  page : Int
  limit : Int
  total : Nat
  pages : Int
deriving DecidableEq, Repr

/-- `getTasks` (task controller): parses `page`/`limit` with defaults 1/10,
computes `skip = (page-1)*limit`, filters the caller's tasks by the query,
sorts by the requested order (`sortLE` is the comparator the `sort` spec
denotes; the default is `createdAt` descending), and returns
`find(query).skip(skip).limit(limit)` together with
`pages = Math.ceil(total/limit)`. -/
def getTasks (db : Store) (caller : Account) (pageQ limitQ : Option Int)
    (statusQ priorityQ searchQ : Option String) (tagsQ : Option (List String))
    (sortLE : TaskDoc → TaskDoc → Bool) : TasksPage :=
  let page := parseIntOr pageQ 1
  let limit := parseIntOr limitQ 10
  let skip := (page - 1) * limit
  let matched := db.tasks.filter
    (getTasksMatch caller.id statusQ priorityQ searchQ tagsQ)
  let sorted := matched.mergeSort sortLE
  let tasks := (sorted.drop skip.toNat).take limit.toNat
  let total := matched.length
  { tasks := tasks, page := page, limit := limit, total := total,
    pages := mathCeilDiv total limit }

/-- `updateUser` (user controller, admin-only route): 404 when the target
does not exist; 400 `You cannot change your own role` when the caller
targets themselves with a truthy `role` different from their current role
(checked before any mutation); 400 when a changed email is already taken;
otherwise `findByIdAndUpdate` with the provided fields (each `if (field)`
truthiness — `none` models an absent-or-falsy field). -/
def updateUser (db : Store) (caller : Account) (targetId : Nat)
    (name? email? role? : Option String) : Resp Account × Store :=
  match findUserById db targetId with
  | none => (⟨404, false, "User not found", none⟩, db)
  | some u =>
    let selfRoleChange :=
      caller.id == targetId &&
        (match role? with
         | some r => r != caller.role
         | none => false)
    let emailTaken :=
      match email? with
      | some e => e != u.email && (findUserByEmail db e).isSome
      | none => false
    if selfRoleChange then
      (⟨400, false, "You cannot change your own role", none⟩, db)
    else if emailTaken then
      (⟨400, false, "Email is already in use", none⟩, db)
    else
      let u1 := match name? with | some n => { u with name := n } | none => u
      let u2 := match email? with
                | some e => { u1 with email := e } | none => u1
      let u3 := match role? with
                | some r => { u2 with role := r } | none => u2
      (⟨200, true, "User updated successfully", some u3⟩,
       { db with users := saveUser db.users u3 })

/-- `deleteUser` (user controller, admin-only route): 404 when the target
does not exist; 400 `You cannot delete your own account` when the caller
targets themselves (checked before any deletion); otherwise
`Task.deleteMany({user: id})` followed by `User.findByIdAndDelete(id)` —
the cascade removes every task owned by the target. -/
def deleteUser (db : Store) (caller : Account) (targetId : Nat) :
    Resp Unit × Store :=
  match findUserById db targetId with
  | none => (⟨404, false, "User not found", none⟩, db)
  | some _ =>
    if caller.id = targetId then
      (⟨400, false, "You cannot delete your own account", none⟩, db)
    else
      (⟨200, true, "User and associated tasks deleted successfully", none⟩,
       { db with tasks := db.tasks.filter (fun t => ¬ t.user = targetId),
                 users := db.users.filter (fun u => ¬ u.id = targetId) })

/-!
Interleaving model of two concurrent `refreshToken` requests against the
same account, for the refresh-rotation atomicity analysis.  The handler's
per-account effect decomposes into two database interactions: the
`findById` read of the stored refresh token, and then — entirely in
application code — the comparison followed by the unconditional
`user.save()` write.  Each request is therefore a two-step program; the
scheduler may interleave the steps of the two requests arbitrarily.
-/

/-- Progress of one in-flight refresh request: not yet started; holding the
copy of the stored token its `findById` read; or finished with its
success/failure outcome. -/
inductive OpPhase where
  | ready : OpPhase
  | readDone : Option Jwt → OpPhase
  | finished : Bool → OpPhase
deriving DecidableEq, Repr

/-- Shared state for the two-request race: the account's stored refresh
token, the fresh-issue counter, and the phase of each request. -/
structure RaceState where
  stored : Option Jwt
  nextNonce : Nat
  opA : OpPhase
  opB : OpPhase
deriving DecidableEq, Repr

/-- Advance one request by one step.  `ready` performs the `findById` read;
`readDone loc` performs the handler's comparison against the copy it read
and, on a match, the unconditional `save()` of a freshly generated token
(reporting success); on a mismatch it reports failure without writing. -/
def raceStep (presented : Jwt) (uid : Nat) (ph : OpPhase)
    (stored : Option Jwt) (nonce : Nat) : OpPhase × Option Jwt × Nat :=
  match ph with
  | .ready => (.readDone stored, stored, nonce)
  | .readDone loc =>
    if loc == some presented then
      (.finished true, some (generateRefreshToken uid nonce), nonce + 1)
    else
      (.finished false, stored, nonce)
  | .finished ok => (.finished ok, stored, nonce)

/-- Run a schedule: `true` advances request A by one step, `false` advances
request B. -/
def runRace (presented : Jwt) (uid : Nat) : List Bool → RaceState → RaceState
  | [], s => s
  | c :: rest, s =>
    if c then
      let (ph, st, n) := raceStep presented uid s.opA s.stored s.nextNonce
      runRace presented uid rest { s with opA := ph, stored := st, nextNonce := n }
    else
      let (ph, st, n) := raceStep presented uid s.opB s.stored s.nextNonce
      runRace presented uid rest { s with opB := ph, stored := st, nextNonce := n }

/-- Whether an in-flight request has finished successfully. -/
def OpPhase.succeeded : OpPhase → Bool
  | .finished ok => ok
  | _ => false

/-! ### Helper lemmas -/

/-- Saving a document whose `_id` is the one searched for makes `findById`
return exactly the saved version, provided some document with that id was
present before. -/
theorem find?_saveUser (users : List Account) (u u1 : Account) (uid : Nat)
    (h : users.find? (fun x => x.id == uid) = some u) (hid : u1.id = uid) :
    (saveUser users u1).find? (fun x => x.id == uid) = some u1 := by
  induction users with
  | nil => simp [List.find?] at h
  | cons a l ih =>
    by_cases ha : a.id = uid
    · simp [saveUser, List.find?, ha, hid]
    · rw [List.find?_cons_of_neg] at h
      · have := ih h
        simp only [saveUser, List.map_cons] at this ⊢
        rw [if_neg (by simp [ha, hid]), List.find?_cons_of_neg _ (by simp [ha])]
        exact this
      · simp [ha]

/-- Integer model of `Math.ceil(total / limit)`: for a positive `limit` the
`(total + limit - 1) / limit` formula is the rational ceiling. -/
theorem mathCeilDiv_eq_ceil (T : Nat) (L : Int) (hL : 1 ≤ L) :
    mathCeilDiv T L = ⌈(T : ℚ) / (L : ℚ)⌉ := by
  have hL0 : (0 : Int) < L := by omega
  unfold mathCeilDiv
  set q : Int := ((T : Int) + L - 1) / L with hq
  have hmod := Int.ediv_add_emod ((T : Int) + L - 1) L
  have hr0 : 0 ≤ ((T : Int) + L - 1) % L := Int.emod_nonneg _ (by omega)
  have hr1 : ((T : Int) + L - 1) % L < L := Int.emod_lt_of_pos _ hL0
  have hqL : T ≤ q * L := by nlinarith [hmod]
  have hqL2 : (q - 1) * L < T := by nlinarith [hmod]
  have hLQ : (0 : ℚ) < (L : ℚ) := by exact_mod_cast hL0
  symm
  rw [Int.ceil_eq_iff]
  refine ⟨?_, ?_⟩
  · rw [lt_div_iff₀ hLQ]
    exact_mod_cast hqL2
  · rw [div_le_iff₀ hLQ]
    exact_mod_cast hqL

/-! ### Claim C5 — login failures are indistinguishable -/

/-- C5: a Login with an email matching no account and a Login with an
existing email but a wrong password fail with the very same generic
401 `Invalid credentials` response (and neither mutates the store). -/
theorem login_invalid_credentials_indistinguishable
    (db : Store) (email1 pw1 email2 pw2 : String) (u : Account)
    (h1 : findUserByEmail db email1 = none)
    (h2 : findUserByEmail db email2 = some u)
    (h3 : bcryptCompare pw2 u.password = false) :
    login db email1 pw1 = login db email2 pw2 ∧
    (login db email1 pw1).fst = ⟨401, false, "Invalid credentials", none⟩ ∧
    (login db email1 pw1).snd = db := by
  simp [login, h1, h2, h3]

/-- C5 witness: a store with one account; a nonexistent email and a wrong
password on the real email produce identical 401 responses. -/
theorem login_invalid_credentials_indistinguishable_witness :
    login ⟨[⟨1, "Alice", "alice@example.com", bcryptHash "Passw0rd", "user",
             none⟩], [], 2, 1, 0⟩ "bob@example.com" "Hunter2"
      = login ⟨[⟨1, "Alice", "alice@example.com", bcryptHash "Passw0rd",
                 "user", none⟩], [], 2, 1, 0⟩ "alice@example.com" "wrong1" ∧
    (login ⟨[⟨1, "Alice", "alice@example.com", bcryptHash "Passw0rd", "user",
              none⟩], [], 2, 1, 0⟩ "bob@example.com" "Hunter2").fst
      = ⟨401, false, "Invalid credentials", none⟩ ∧
    (login ⟨[⟨1, "Alice", "alice@example.com", bcryptHash "Passw0rd", "user",
              none⟩], [], 2, 1, 0⟩ "bob@example.com" "Hunter2").snd
      = ⟨[⟨1, "Alice", "alice@example.com", bcryptHash "Passw0rd", "user",
           none⟩], [], 2, 1, 0⟩ :=
  login_invalid_credentials_indistinguishable _ _ _ _ _
    ⟨1, "Alice", "alice@example.com", bcryptHash "Passw0rd", "user", none⟩
    (by decide) (by decide) (by decide)

/-! ### Claim C7 — requested role is honoured only for the known roles -/

/-- C7: registering with an unused email stores the newly created account
(the last document of the users collection) with role equal to the
requested role when that is `user` or `admin`, and with role `user` for any
other requested value, including an absent role field; the response is the
201 success. -/
theorem register_role_policy (db : Store) (nm email password : String)
    (role? : Option String) (h : findUserByEmail db email = none) :
    ∃ a : Account,
      ((register db nm email password role?).snd.users).getLast? = some a ∧
      (register db nm email password role?).fst.status = 201 ∧
      (∀ r, role? = some r → (r = "user" ∨ r = "admin") → a.role = r) ∧
      (∀ r, role? = some r → ¬ (r = "user" ∨ r = "admin") → a.role = "user") ∧
      (role? = none → a.role = "user") := by
  simp only [register, h, sendTokenResponse, saveUser, List.map_append,
    List.map_cons, List.map_nil, beq_self_eq_true, if_true]
  refine ⟨_, List.getLast?_concat _, trivial, ?_, ?_, ?_⟩
  · intro r hr hok
    subst hr
    simp [hok]
  · intro r hr hbad
    subst hr
    simp [if_neg hbad]
  · intro hr
    subst hr
    simp

/-- C7 witness: registering `dora@example.com` (unused) with requested role
`admin` stores role `admin`; the concrete conclusions are obtained by
instantiating the policy theorem. -/
theorem register_role_policy_witness :
    ∃ a : Account,
      ((register ⟨[⟨1, "Alice", "alice@example.com", bcryptHash "Passw0rd",
          "user", none⟩], [], 2, 1, 0⟩ "Dora" "dora@example.com" "Secret1"
          (some "admin")).snd.users).getLast? = some a ∧
      (register ⟨[⟨1, "Alice", "alice@example.com", bcryptHash "Passw0rd",
          "user", none⟩], [], 2, 1, 0⟩ "Dora" "dora@example.com" "Secret1"
          (some "admin")).fst.status = 201 ∧
      (∀ r, (some "admin" : Option String) = some r →
        (r = "user" ∨ r = "admin") → a.role = r) ∧
      (∀ r, (some "admin" : Option String) = some r →
        ¬ (r = "user" ∨ r = "admin") → a.role = "user") ∧
      ((some "admin" : Option String) = none → a.role = "user") :=
  register_role_policy _ "Dora" "dora@example.com" "Secret1" (some "admin")
    (by decide)

/-! ### Fixtures for concrete instances -/

/-- Fixture: an administrator account. -/
def adminAcc : Account :=
  ⟨1, "Admin", "admin@example.com", bcryptHash "Admin123", "admin", none⟩

/-- Fixture: a regular account. -/
def bobAcc : Account :=
  ⟨2, "Bob", "bob@example.com", bcryptHash "User123", "user", none⟩

/-- Fixture: a second regular account owning no tasks. -/
def caroAcc : Account :=
  ⟨3, "Caro", "caro@example.com", bcryptHash "User123", "user", none⟩

/-- Fixture: a task owned by the regular account `bobAcc`. -/
def bobTask : TaskDoc :=
  ⟨10, "Write report", none, "pending", "medium", none, [], 2, none, 0⟩

/-- Fixture store: the three accounts and Bob's task. -/
def sampleDb : Store := ⟨[adminAcc, bobAcc, caroAcc], [bobTask], 4, 11, 0⟩

/-! ### Claim C2 — which handlers drop the owner filter for admins -/

/-- C2 counterexample: the elevated role does not make every task request
succeed.  In the fixture store the admin requests Bob's existing task by id:
`getTask` filters by `user: req.user._id` unconditionally and returns 404,
and `deleteTask` does the same — contradicting the claim that get, update
and delete all succeed unfiltered for an admin caller. -/
theorem admin_task_scope_counterexample :
    adminAcc.role = "admin" ∧ bobTask ∈ sampleDb.tasks ∧ bobTask.id = 10 ∧
    (getTask sampleDb adminAcc 10).status = 404 ∧
    (getTask sampleDb adminAcc 10).success = false ∧
    (deleteTask sampleDb adminAcc 10).fst.status = 404 ∧
    (deleteTask sampleDb adminAcc 10).fst.success = false := by decide

/-- C2 amended: of the three single-task handlers only `updateTask` drops
the owner filter for the elevated role — an admin's update of any existing
task succeeds regardless of owner, while `getTask` and `deleteTask` remain
owner-scoped for every caller, admins included: when no task with the
requested id is owned by the caller they return 404 and delete leaves the
store unchanged. -/
theorem task_elevated_scope_amended (db : Store) (caller : Account)
    (tid : Nat) (t : TaskDoc) (title? : Option String)
    (descr? : Option (Option String)) (status? priority? : Option String)
    (due? : Option (Option Int)) (tags? : Option (List String)) (now : Nat)
    (hadmin : caller.role = "admin")
    (hfind : db.tasks.find? (fun x => x.id == tid) = some t) :
    (updateTask db caller tid title? descr? status? priority? due? tags?
       now).fst.status = 200 ∧
    ((∀ x ∈ db.tasks, ¬ (x.id = tid ∧ x.user = caller.id)) →
      (getTask db caller tid).status = 404 ∧
      (deleteTask db caller tid).fst.status = 404 ∧
      (deleteTask db caller tid).snd = db) := by
  constructor
  · have hmatch : updateTaskMatch caller tid = fun x => x.id == tid := by
      funext x
      simp [updateTaskMatch, hadmin]
    simp [updateTask, hmatch, hfind]
  · intro hnone
    have hfin : db.tasks.find?
        (fun x => x.id == tid && x.user == caller.id) = none := by
      rw [List.find?_eq_none]
      intro x hx
      simpa using hnone x hx
    simp [getTask, deleteTask, hfin]

/-- C2 amended witness: in the fixture store the admin updates Bob's task
successfully, while the admin's get and delete of the same task return 404
and delete nothing. -/
theorem task_elevated_scope_amended_witness :
    (updateTask sampleDb adminAcc 10 none none none none none none
       5).fst.status = 200 ∧
    (getTask sampleDb adminAcc 10).status = 404 ∧
    (deleteTask sampleDb adminAcc 10).fst.status = 404 ∧
    (deleteTask sampleDb adminAcc 10).snd = sampleDb := by
  have h := task_elevated_scope_amended sampleDb adminAcc 10 bobTask
    none none none none none none 5 (by decide) (by decide)
  have h2 := h.2 (by decide)
  exact ⟨h.1, h2.1, h2.2.1, h2.2.2⟩

/-! ### Claim C3 — cross-owner access reads as not-found -/

/-- C3: for a non-elevated caller and a task id none of whose documents are
owned by the caller, `getTask` returns the exact 404 `Task not found`
response — identical to the response on a store where no task with that id
exists at all — and `deleteTask` returns the same 404 and leaves the store
(hence the task) unchanged.  No branch produces a 403. -/
theorem crossOwner_task_not_found (db : Store) (caller : Account) (tid : Nat)
    (_hrole : caller.role ≠ "admin")
    (hnotowned : ∀ x ∈ db.tasks, x.id = tid → x.user ≠ caller.id) :
    getTask db caller tid = ⟨404, false, "Task not found", none⟩ ∧
    getTask { db with tasks := db.tasks.filter (fun x => ! (x.id == tid)) }
      caller tid = getTask db caller tid ∧
    deleteTask db caller tid = (⟨404, false, "Task not found", none⟩, db) := by
  have hfin : db.tasks.find?
      (fun x => x.id == tid && x.user == caller.id) = none := by
    rw [List.find?_eq_none]
    intro x hx
    simp only [Bool.and_eq_true, beq_iff_eq, not_and]
    exact hnotowned x hx
  have hfin2 : (db.tasks.filter (fun x => ! (x.id == tid))).find?
      (fun x => x.id == tid && x.user == caller.id) = none := by
    rw [List.find?_eq_none]
    intro x hx
    have := (List.mem_filter.mp hx).2
    simp only [Bool.not_eq_true', beq_eq_false_iff_ne] at this
    simp [this]
  simp [getTask, deleteTask, hfin, hfin2]

/-- C3 witness: Caro (role `user`) requests Bob's task: both get and delete
answer the exact 404 response and the store is untouched. -/
theorem crossOwner_task_not_found_witness :
    getTask sampleDb caroAcc 10 = ⟨404, false, "Task not found", none⟩ ∧
    getTask { sampleDb with
        tasks := sampleDb.tasks.filter (fun x => ! (x.id == 10)) } caroAcc 10
      = getTask sampleDb caroAcc 10 ∧
    deleteTask sampleDb caroAcc 10
      = (⟨404, false, "Task not found", none⟩, sampleDb) :=
  crossOwner_task_not_found sampleDb caroAcc 10 (by decide) (by decide)

/-! ### Claim C6 — self-protection of elevated accounts -/

/-- C6: an elevated caller who targets their own account with an update
carrying a role different from their current role receives the 400
`You cannot change your own role` response, and one who targets their own
account with a delete receives the 400 `You cannot delete your own
account` response; in both cases the store — accounts and tasks alike — is
returned unchanged. -/
theorem elevated_self_action_forbidden (db : Store) (caller : Account)
    (name? email? : Option String) (r : String)
    (_hrole : caller.role = "admin")
    (hself : findUserById db caller.id = some caller)
    (hr : r ≠ caller.role) :
    updateUser db caller caller.id name? email? (some r)
      = (⟨400, false, "You cannot change your own role", none⟩, db) ∧
    deleteUser db caller caller.id
      = (⟨400, false, "You cannot delete your own account", none⟩, db) := by
  constructor
  · simp [updateUser, hself, hr]
  · simp [deleteUser, hself]

/-- C6 witness: the fixture admin tries to demote itself to `user` and to
delete itself; both answer the 400 self-action response and leave the
fixture store untouched. -/
theorem elevated_self_action_forbidden_witness :
    updateUser sampleDb adminAcc adminAcc.id none none (some "user")
      = (⟨400, false, "You cannot change your own role", none⟩, sampleDb) ∧
    deleteUser sampleDb adminAcc adminAcc.id
      = (⟨400, false, "You cannot delete your own account", none⟩,
         sampleDb) :=
  elevated_self_action_forbidden sampleDb adminAcc none none "user"
    (by decide) (by decide) (by decide)

/-! ### Claim C8 — account deletion cascades to the owned tasks -/

/-- C8: when an admin delete of another existing account succeeds (status
200), the resulting store holds zero task documents referencing the deleted
account id, and the account itself is gone. -/
theorem deleteUser_cascade (db : Store) (caller : Account) (targetId : Nat)
    (u : Account)
    (hfind : findUserById db targetId = some u)
    (hne : caller.id ≠ targetId) :
    (deleteUser db caller targetId).fst.status = 200 ∧
    (deleteUser db caller targetId).snd.tasks.filter
      (fun t => t.user == targetId) = [] ∧
    findUserById (deleteUser db caller targetId).snd targetId = none := by
  have hdel : deleteUser db caller targetId
      = (⟨200, true, "User and associated tasks deleted successfully", none⟩,
         { db with tasks := db.tasks.filter (fun t => ¬ t.user = targetId),
                   users := db.users.filter (fun u => ¬ u.id = targetId) }) := by
    simp [deleteUser, hfind, hne]
  rw [hdel]
  refine ⟨rfl, ?_, ?_⟩
  · rw [List.filter_eq_nil_iff]
    intro t ht
    have := (List.mem_filter.mp ht).2
    simpa using this
  · rw [findUserById, List.find?_eq_none]
    intro x hx
    have := (List.mem_filter.mp hx).2
    simpa using this

/-- C8 witness: the admin deletes Bob; Bob's task disappears with the
account. -/
theorem deleteUser_cascade_witness :
    (deleteUser sampleDb adminAcc 2).fst.status = 200 ∧
    (deleteUser sampleDb adminAcc 2).snd.tasks.filter
      (fun t => t.user == 2) = [] ∧
    findUserById (deleteUser sampleDb adminAcc 2).snd 2 = none :=
  deleteUser_cascade sampleDb adminAcc 2 bobAcc (by decide) (by decide)

/-! ### Claim C4 — completedAt tracks the completed status -/

/-- The Task invariant at issue: the completion timestamp is present iff the
status equals `completed`. -/
def completionInv (t : TaskDoc) : Prop :=
  t.completedAt.isSome = true ↔ t.status = "completed"

/-- A save that modifies the status path leaves the document satisfying the
completion invariant, whatever it held before. -/
theorem statusPreSave_modified_inv (now : Nat) (t : TaskDoc) :
    completionInv (statusPreSave true now t) := by
  by_cases h : t.status = "completed" <;>
    simp [statusPreSave, completionInv, h]

/-- A save that does not modify the status path leaves the document
untouched by the hook. -/
theorem statusPreSave_not_modified (now : Nat) (t : TaskDoc) :
    statusPreSave false now t = t := by
  simp [statusPreSave]

/-- C4: every mutation path keeps `completedAt` present exactly when the
status is `completed`:
(a) a created task satisfies the invariant (setting status `completed` at
creation stamps `completedAt`, any other status leaves it absent);
(b) a single update whose body carries a status different from the loaded
task's status saves a task satisfying the invariant (moving to `completed`
stamps, moving away clears);
(c) after a bulk status update with a valid status, every stored task
selected by it (id in the list, owned by the caller) satisfies the
invariant. -/
theorem completedAt_iff_completed (db : Store) (caller : Account) (now : Nat) :
    (∀ title descr status? priority? due tags t,
       (createTask db caller title descr status? priority? due tags
          now).fst.data = some t →
       completionInv t) ∧
    (∀ tid title? descr? status? priority? due? tags? t0 s t,
       db.tasks.find? (updateTaskMatch caller tid) = some t0 →
       status? = some s → s ≠ t0.status →
       (updateTask db caller tid title? descr? status? priority? due? tags?
          now).fst.data = some t →
       completionInv t) ∧
    (∀ taskIds status,
       status ∈ ["pending", "in-progress", "completed"] →
       ∀ t ∈ (bulkUpdateStatus db caller taskIds status now).snd.tasks,
         t.id ∈ taskIds → t.user = caller.id → completionInv t) := by
  refine ⟨?_, ?_, ?_⟩
  · intro title descr status? priority? due tags t ht
    simp only [createTask, Option.some.injEq] at ht
    subst ht
    exact statusPreSave_modified_inv now _
  · intro tid title? descr? status? priority? due? tags? t0 s t hfind hs hne ht
    subst hs
    simp only [updateTask, hfind, Option.some.injEq] at ht
    rw [show (s != t0.status) = true by simp [bne_iff_ne, hne]] at ht
    subst ht
    exact statusPreSave_modified_inv now _
  · intro taskIds status hstat t ht hid huser
    by_cases hempty : taskIds.isEmpty
    · rw [List.isEmpty_iff] at hempty
      subst hempty
      simp at hid
    · simp only [bulkUpdateStatus, hempty, Bool.false_eq_true, if_false,
        hstat, not_true_eq_false, List.mem_map] at ht
      obtain ⟨t1, ht1, rfl⟩ := ht
      by_cases hsel : t1.id ∈ taskIds ∧ t1.user = caller.id
      · rw [if_pos hsel]
        by_cases hc : status = "completed" <;>
          simp [completionInv, hc]
      · rw [if_neg hsel] at hid huser ⊢
        exact absurd ⟨hid, huser⟩ hsel

/-- C4 witness: concrete runs of the three mutation paths — creating a task
directly as `completed` (stamps `completedAt`), updating Bob's pending task
to `completed` (stamps), and bulk-resetting it to `pending` (clears) — each
yield a task satisfying the completion invariant. -/
theorem completedAt_iff_completed_witness :
    completionInv ⟨11, "Ship it", none, "completed", "medium", none, [], 2,
      some 7, 7⟩ ∧
    completionInv ⟨10, "Write report", none, "completed", "medium", none, [],
      2, some 8, 0⟩ ∧
    completionInv ⟨10, "Write report", none, "pending", "medium", none, [],
      2, none, 0⟩ :=
  ⟨(completedAt_iff_completed sampleDb bobAcc 7).1 "Ship it" none
      (some "completed") none none [] _ (by decide),
   (completedAt_iff_completed sampleDb bobAcc 8).2.1 10 none none
      (some "completed") none none none bobTask "completed" _ (by decide)
      rfl (by decide) (by decide),
   (completedAt_iff_completed sampleDb bobAcc 9).2.2 [10] "pending"
      (by decide) _ (by decide) (by decide) (by decide)⟩

/-! ### Claim C1 — refresh tokens are single-use after rotation -/

/-- Fixture: the refresh token currently stored on Carol's account. -/
def carolTok : Jwt := ⟨5, 0, true, false⟩

/-- Fixture: an account holding a stored refresh token. -/
def carolAcc : Account :=
  ⟨5, "Carol", "carol@example.com", bcryptHash "Carol123", "user",
   some carolTok⟩

/-- Fixture store for the refresh-rotation runs. -/
def carolDb : Store := ⟨[carolAcc], [], 6, 1, 1⟩

/-- C1: for an account resolved from a verifiable presented token R,
(a) when R matches the stored refresh token the call succeeds (200) and
rotates, after which presenting R again fails with the 401 invalid/expired
token error; (b) whenever the presented token differs from the stored one
the call fails with the 401 error and leaves the store unchanged. -/
theorem refresh_rotation_single_use (db : Store) (R : Jwt) (uid : Nat)
    (u : Account)
    (hwf : StoreWF db)
    (hver : jwtVerify R = some uid)
    (hfind : findUserById db uid = some u) :
    (u.refreshToken = some R →
      (refreshTokenHandler db (some R)).fst.status = 200 ∧
      (refreshTokenHandler (refreshTokenHandler db (some R)).snd
          (some R)).fst.status = 401 ∧
      (refreshTokenHandler (refreshTokenHandler db (some R)).snd
          (some R)).fst.success = false) ∧
    (u.refreshToken ≠ some R →
      (refreshTokenHandler db (some R)).fst.status = 401 ∧
      (refreshTokenHandler db (some R)).fst.success = false ∧
      (refreshTokenHandler db (some R)).snd = db) := by
  have huid : u.id = uid := by
    have h := List.find?_some hfind
    simpa using h
  constructor
  · intro hEq
    have hmem : u ∈ db.users := List.mem_of_find?_eq_some hfind
    have hnonce : R.nonce < db.nextNonce := hwf u hmem R hEq
    set newTok : Jwt := generateRefreshToken u.id (db.nextNonce + 1) with hnew
    set u1 : Account := { u with refreshToken := some newTok } with hu1
    set db1 : Store := { db with users := saveUser db.users u1,
                                 nextNonce := db.nextNonce + 2 } with hdb1
    have h1 : refreshTokenHandler db (some R)
        = (⟨200, true, "Token refreshed successfully",
            some (generateAccessToken u.id db.nextNonce, newTok)⟩, db1) := by
      simp [refreshTokenHandler, hver, hfind, hEq, hdb1, hu1]
    have h2 : findUserById db1 uid = some u1 :=
      find?_saveUser db.users u u1 uid hfind (by simp [hu1, huid])
    have hne3 : newTok ≠ R := by
      intro hcon
      have hn : newTok.nonce = R.nonce := by rw [hcon]
      simp [hnew, generateRefreshToken] at hn
      omega
    rw [h1]
    simp [refreshTokenHandler, hver, h2, hne3]
  · intro hne
    simp [refreshTokenHandler, hver, hfind, hne]

/-- C1 witness: Carol presents her stored token — the first call succeeds,
replaying the same token fails with 401. -/
theorem refresh_rotation_single_use_witness :
    (refreshTokenHandler carolDb (some carolTok)).fst.status = 200 ∧
    (refreshTokenHandler (refreshTokenHandler carolDb (some carolTok)).snd
        (some carolTok)).fst.status = 401 ∧
    (refreshTokenHandler (refreshTokenHandler carolDb (some carolTok)).snd
        (some carolTok)).fst.success = false :=
  (refresh_rotation_single_use carolDb carolTok 5 carolAcc
    (by
      intro u hu t ht
      simp only [carolDb, List.mem_singleton] at hu
      subst hu
      simp only [carolAcc, Option.some.injEq] at ht
      subst ht
      decide)
    (by decide) (by decide)).1 (by decide)

/-! ### Claim C9 — refresh-token rotation is not atomic -/

/-- C9 counterexample: the rotation sequence is not effectively atomic.
With the stored token equal to the presented token R, the interleaving
"A reads, B reads, A compares-and-saves, B compares-and-saves" — available
because the handler's comparison and unconditional `save()` happen in
application code after the `findById` read — ends with BOTH concurrent
refresh requests reporting success, contradicting the claim that two
concurrent calls presenting the same now-superseded token cannot both
succeed. -/
theorem refresh_race_counterexample :
    (runRace ⟨7, 0, true, false⟩ 7 [true, false, true, false]
      ⟨some ⟨7, 0, true, false⟩, 1, .ready, .ready⟩).opA.succeeded = true ∧
    (runRace ⟨7, 0, true, false⟩ 7 [true, false, true, false]
      ⟨some ⟨7, 0, true, false⟩, 1, .ready, .ready⟩).opB.succeeded = true := by
  decide

/-- C9 amended: the read-compare-overwrite sequence of `refreshToken` is
not atomic per account — the code performs a `findById` read and then
compares and unconditionally saves in application code, with no conditional
update — so there exists an interleaving of two concurrent refresh calls
presenting the same stored token in which both succeed; only when the two
calls do not interleave (serial schedule) does the second call fail. -/
theorem refresh_race_not_atomic (R : Jwt) (uid n : Nat)
    (hfresh : generateRefreshToken uid n ≠ R) :
    ((runRace R uid [true, false, true, false]
        ⟨some R, n, .ready, .ready⟩).opA.succeeded = true ∧
     (runRace R uid [true, false, true, false]
        ⟨some R, n, .ready, .ready⟩).opB.succeeded = true) ∧
    ((runRace R uid [true, true, false, false]
        ⟨some R, n, .ready, .ready⟩).opA.succeeded = true ∧
     (runRace R uid [true, true, false, false]
        ⟨some R, n, .ready, .ready⟩).opB.succeeded = false) := by
  have hbe : (some (generateRefreshToken uid n) == some R) = false := by
    simp [hfresh]
  constructor
  · simp [runRace, raceStep, OpPhase.succeeded]
  · simp [runRace, raceStep, OpPhase.succeeded, hbe]

/-- C9 amended witness: a concrete token and account id — the interleaved
schedule lets both calls succeed, the serial schedule fails the second. -/
theorem refresh_race_not_atomic_witness :
    ((runRace ⟨7, 0, true, false⟩ 7 [true, false, true, false]
        ⟨some ⟨7, 0, true, false⟩, 1, .ready, .ready⟩).opA.succeeded = true ∧
     (runRace ⟨7, 0, true, false⟩ 7 [true, false, true, false]
        ⟨some ⟨7, 0, true, false⟩, 1, .ready, .ready⟩).opB.succeeded = true) ∧
    ((runRace ⟨7, 0, true, false⟩ 7 [true, true, false, false]
        ⟨some ⟨7, 0, true, false⟩, 1, .ready, .ready⟩).opA.succeeded = true ∧
     (runRace ⟨7, 0, true, false⟩ 7 [true, true, false, false]
        ⟨some ⟨7, 0, true, false⟩, 1, .ready, .ready⟩).opB.succeeded
       = false) :=
  refresh_race_not_atomic ⟨7, 0, true, false⟩ 7 1 (by decide)

/-! ### Claim C10 — task-list pagination -/

/-- C10: for any task-list request, with `r` the handler's result:
defaults — an absent/non-numeric page or limit parameter yields page 1 and
limit 10; every returned task matches the query filter and comes from the
store; and for the (defaulted or requested) positive page and limit the
returned list's length is exactly `min limit (total - (page-1)*limit)` —
i.e. exactly `(page-1)*limit` matching tasks are skipped and at most
`limit` are returned — and the reported `pages` is the rational ceiling of
`total / limit`. -/
theorem getTasks_pagination (db : Store) (caller : Account)
    (pageQ limitQ : Option Int) (statusQ priorityQ searchQ : Option String)
    (tagsQ : Option (List String)) (sortLE : TaskDoc → TaskDoc → Bool)
    (r : TasksPage)
    (hr : getTasks db caller pageQ limitQ statusQ priorityQ searchQ tagsQ
            sortLE = r) :
    (pageQ = none → r.page = 1) ∧
    (limitQ = none → r.limit = 10) ∧
    r.total = (db.tasks.filter
      (getTasksMatch caller.id statusQ priorityQ searchQ tagsQ)).length ∧
    (∀ t ∈ r.tasks,
      getTasksMatch caller.id statusQ priorityQ searchQ tagsQ t = true ∧
      t ∈ db.tasks) ∧
    (1 ≤ r.page → 1 ≤ r.limit →
      r.tasks.length
        = min r.limit.toNat (r.total - ((r.page - 1) * r.limit).toNat) ∧
      r.tasks.length ≤ r.limit.toNat ∧
      r.pages = ⌈(r.total : ℚ) / (r.limit : ℚ)⌉) := by
  subst hr
  refine ⟨?_, ?_, ?_, ?_, ?_⟩
  · intro h
    simp [getTasks, h, parseIntOr]
  · intro h
    simp [getTasks, h, parseIntOr]
  · rfl
  · intro t ht
    simp only [getTasks] at ht
    have h1 : t ∈ (db.tasks.filter
        (getTasksMatch caller.id statusQ priorityQ searchQ tagsQ)).mergeSort
          sortLE :=
      List.mem_of_mem_drop (List.mem_of_mem_take ht)
    have h2 : t ∈ db.tasks.filter
        (getTasksMatch caller.id statusQ priorityQ searchQ tagsQ) :=
      (List.mergeSort_perm _ sortLE).mem_iff.mp h1
    have h3 := List.mem_filter.mp h2
    exact ⟨h3.2, h3.1⟩
  · intro hpage hlimit
    simp only [getTasks]
    refine ⟨?_, ?_, ?_⟩
    · rw [List.length_take, List.length_drop, List.length_mergeSort]
    · rw [List.length_take]
      exact min_le_left _ _
    · exact mathCeilDiv_eq_ceil _ _ (by simpa [getTasks] using hlimit)

/-- Fixture: a second task of Bob's. -/
def task11 : TaskDoc :=
  ⟨11, "Plan sprint", none, "pending", "high", none, [], 2, none, 1⟩

/-- Fixture: a third task of Bob's. -/
def task12 : TaskDoc :=
  ⟨12, "Fix bug", none, "in-progress", "low", none, [], 2, none, 2⟩

/-- Fixture store with three tasks owned by Bob. -/
def pagingDb : Store := ⟨[bobAcc], [bobTask, task11, task12], 4, 13, 0⟩

/-- The handler's default sort, `createdAt` descending. -/
def byCreatedDesc : TaskDoc → TaskDoc → Bool :=
  fun a b => decide (b.createdAt ≤ a.createdAt)

/-- C10 witness: three matching tasks, no page parameter, `limit=2`: the
page defaults to 1, at most two tasks are returned (exactly
`min 2 (3 - 0)` = 2), and `pages` is the ceiling of `3 / 2`. -/
theorem getTasks_pagination_witness :
    (getTasks pagingDb bobAcc none (some 2) none none none none
       byCreatedDesc).page = 1 ∧
    (getTasks pagingDb bobAcc none (some 2) none none none none
       byCreatedDesc).tasks.length
      = min (getTasks pagingDb bobAcc none (some 2) none none none none
          byCreatedDesc).limit.toNat
        ((getTasks pagingDb bobAcc none (some 2) none none none none
           byCreatedDesc).total
         - (((getTasks pagingDb bobAcc none (some 2) none none none none
              byCreatedDesc).page - 1)
            * (getTasks pagingDb bobAcc none (some 2) none none none none
                byCreatedDesc).limit).toNat) ∧
    (getTasks pagingDb bobAcc none (some 2) none none none none
       byCreatedDesc).tasks.length
      ≤ (getTasks pagingDb bobAcc none (some 2) none none none none
          byCreatedDesc).limit.toNat ∧
    (getTasks pagingDb bobAcc none (some 2) none none none none
       byCreatedDesc).pages
      = ⌈((getTasks pagingDb bobAcc none (some 2) none none none none
            byCreatedDesc).total : ℚ)
         / ((getTasks pagingDb bobAcc none (some 2) none none none none
             byCreatedDesc).limit : ℚ)⌉ := by
  have h := getTasks_pagination pagingDb bobAcc none (some 2) none none none
    none byCreatedDesc _ rfl
  have h5 := h.2.2.2.2 (by decide) (by decide)
  exact ⟨h.1 rfl, h5.1, h5.2.1, h5.2.2⟩

end TaskIt
